import Mathlib

/-!
Verification of the ECS152 Project 3 sender core.

Shallow embedding of:
* `senders/packet_utils.py` — packet codec (`make_packet`, `parse_ack`);
* `senders/metrics.py` — `RTTTracker` (RFC 6298-style RTT estimation);
* `senders/custom_protocol.py` — the Multi-Signal Adaptive congestion
  engine (`detect_phase_transition`, `update_window_on_ack`,
  `handle_loss`, the EOF marker of `send_packets`).

Bytes are modelled as natural numbers (with `< 256` hypotheses where byte
range matters), Python byte strings as `List Nat`, Python `float`
arithmetic as exact rational arithmetic (`ℚ`), and Python text strings as
lists of Unicode code points (`List Nat`).
-/

namespace ECS152

/-! ## Constants (`senders/packet_utils.py`) -/

/-- `PACKET_SIZE = 1024`. -/
def PACKET_SIZE : Nat := 1024

/-- `SEQ_ID_SIZE = 4`. -/
def SEQ_ID_SIZE : Nat := 4

/-- `MSS = PACKET_SIZE - SEQ_ID_SIZE`: maximum payload bytes per packet. -/
def MSS : Nat := PACKET_SIZE - SEQ_ID_SIZE

/-! ## Byte-level integer codec

`int.to_bytes(seq_id, 4, byteorder="big", signed=True)` and
`int.from_bytes(packet[:4], byteorder="big", signed=True)`. -/

/-- Big-endian 4-byte representation of a natural number `n < 2^32`. -/
def natToBytes4 (n : Nat) : List Nat :=
  [n / 2 ^ 24 % 256, n / 2 ^ 16 % 256, n / 2 ^ 8 % 256, n % 256]

/-- Python `int.to_bytes(v, 4, "big", signed=True)`: defined exactly on
`-2^31 ≤ v < 2^31` (otherwise `OverflowError`), producing the two's
complement big-endian bytes. -/
def intToBytes4 (v : Int) : Option (List Nat) :=
  if -(2 ^ 31) ≤ v ∧ v < 2 ^ 31 then
    some (natToBytes4 (v % 2 ^ 32).toNat)
  else
    none

/-- Python `int.from_bytes(b[:4], "big", signed=True)` on a byte list
starting with at least four bytes. -/
def intFromBytes4 : List Nat → Int
  | b0 :: b1 :: b2 :: b3 :: _ =>
    let n : Nat := ((b0 * 256 + b1) * 256 + b2) * 256 + b3
    if 2 ^ 31 ≤ n then (n : Int) - 2 ^ 32 else (n : Int)
  | _ => 0

/-- `make_packet(seq_id, payload)`: truncate the payload to `MSS` bytes and
prepend the 4-byte big-endian signed sequence id.  `none` models the
`OverflowError` raised when `seq_id` does not fit in 4 signed bytes. -/
def make_packet (seq_id : Int) (payload : List Nat) : Option (List Nat) :=
  (intToBytes4 seq_id).map (fun sb => sb ++ payload.take MSS)

/-! ## UTF-8 (CPython `bytes.decode("utf-8", errors="ignore")` and `str.strip()`)

Code points are modelled as natural numbers.  A code point is valid when it
is below `0x110000` and not a UTF-16 surrogate. -/

/-- A scalar Unicode code point (encodable in UTF-8). -/
def ValidCp (c : Nat) : Prop := c < 0x110000 ∧ ¬(0xD800 ≤ c ∧ c ≤ 0xDFFF)

instance (c : Nat) : Decidable (ValidCp c) := by unfold ValidCp; infer_instance

/-- UTF-8 encoding of one code point. -/
def utf8EncodeChar (c : Nat) : List Nat :=
  if c < 0x80 then [c]
  else if c < 0x800 then [0xC0 + c / 64, 0x80 + c % 64]
  else if c < 0x10000 then
    [0xE0 + c / 4096, 0x80 + c / 64 % 64, 0x80 + c % 64]
  else
    [0xF0 + c / 0x40000, 0x80 + c / 4096 % 64, 0x80 + c / 64 % 64,
     0x80 + c % 64]

/-- UTF-8 encoding of a string of code points (Python `str.encode()`). -/
def utf8Encode : List Nat → List Nat
  | [] => []
  | c :: t => utf8EncodeChar c ++ utf8Encode t

/-- A UTF-8 continuation byte. -/
def IsCont (b : Nat) : Prop := 0x80 ≤ b ∧ b ≤ 0xBF

instance (b : Nat) : Decidable (IsCont b) := by unfold IsCont; infer_instance

/-- Constraint on the second byte of a three-byte sequence (excludes
overlong encodings and surrogates, per the UTF-8 definition that CPython
implements). -/
def Second2Ok (b b2 : Nat) : Prop :=
  (b = 0xE0 ∧ 0xA0 ≤ b2 ∧ b2 ≤ 0xBF) ∨
  (0xE1 ≤ b ∧ b ≤ 0xEC ∧ 0x80 ≤ b2 ∧ b2 ≤ 0xBF) ∨
  (b = 0xED ∧ 0x80 ≤ b2 ∧ b2 ≤ 0x9F) ∨
  (0xEE ≤ b ∧ b ≤ 0xEF ∧ 0x80 ≤ b2 ∧ b2 ≤ 0xBF)

instance (b b2 : Nat) : Decidable (Second2Ok b b2) := by
  unfold Second2Ok; infer_instance

/-- Constraint on the second byte of a four-byte sequence (excludes
overlong encodings and code points above `0x10FFFF`). -/
def Second3Ok (b b2 : Nat) : Prop :=
  (b = 0xF0 ∧ 0x90 ≤ b2 ∧ b2 ≤ 0xBF) ∨
  (0xF1 ≤ b ∧ b ≤ 0xF3 ∧ 0x80 ≤ b2 ∧ b2 ≤ 0xBF) ∨
  (b = 0xF4 ∧ 0x80 ≤ b2 ∧ b2 ≤ 0x8F)

instance (b b2 : Nat) : Decidable (Second3Ok b b2) := by
  unfold Second3Ok; infer_instance

/-- Fuel-based UTF-8 decoding step; `fuel ≥ length` makes the fuel
irrelevant (each step consumes at least one byte). -/
def utf8DecodeAux : Nat → List Nat → List Nat
  | 0, _ => []
  | Nat.succ _, [] => []
  | Nat.succ f, b :: rest =>
    if b ≤ 0x7F then b :: utf8DecodeAux f rest
    else if 0xC2 ≤ b ∧ b ≤ 0xDF then
      match rest with
      | b2 :: r2 =>
        if IsCont b2 then
          ((b - 0xC0) * 64 + (b2 - 0x80)) :: utf8DecodeAux f r2
        else utf8DecodeAux f rest
      | [] => []
    else if 0xE0 ≤ b ∧ b ≤ 0xEF then
      match rest with
      | b2 :: b3 :: r3 =>
        if Second2Ok b b2 ∧ IsCont b3 then
          ((b - 0xE0) * 4096 + (b2 - 0x80) * 64 + (b3 - 0x80)) ::
            utf8DecodeAux f r3
        else utf8DecodeAux f rest
      | _ => utf8DecodeAux f rest
    else if 0xF0 ≤ b ∧ b ≤ 0xF4 then
      match rest with
      | b2 :: b3 :: b4 :: r4 =>
        if Second3Ok b b2 ∧ IsCont b3 ∧ IsCont b4 then
          ((b - 0xF0) * 0x40000 + (b2 - 0x80) * 4096 + (b3 - 0x80) * 64 +
              (b4 - 0x80)) :: utf8DecodeAux f r4
        else utf8DecodeAux f rest
      | _ => utf8DecodeAux f rest
    else utf8DecodeAux f rest

/-- CPython `bytes.decode("utf-8", errors="ignore")`: decode greedily,
dropping the bytes of every maximal invalid subpart.  Dropping one invalid
byte at a time yields the same output, because a byte inside a maximal
subpart is a continuation byte and a continuation byte on its own is
always dropped. -/
def utf8DecodeIgnore (l : List Nat) : List Nat :=
  utf8DecodeAux l.length l

/-- Code points stripped by Python `str.strip()` (the code points `c` with
`c.isspace()` true). -/
def isPySpace (c : Nat) : Bool :=
  c ∈ [0x09, 0x0A, 0x0B, 0x0C, 0x0D, 0x1C, 0x1D, 0x1E, 0x1F, 0x20, 0x85,
       0xA0, 0x1680, 0x2000, 0x2001, 0x2002, 0x2003, 0x2004, 0x2005,
       0x2006, 0x2007, 0x2008, 0x2009, 0x200A, 0x2028, 0x2029, 0x202F,
       0x205F, 0x3000]

/-- Python `str.strip()`: remove whitespace code points from both ends. -/
def pyStrip (s : List Nat) : List Nat :=
  ((s.dropWhile isPySpace).reverse.dropWhile isPySpace).reverse

/-- `parse_ack(packet)`: `none` models the `ValueError` raised when the
packet is shorter than `SEQ_ID_SIZE`; otherwise the first four bytes are
read as a big-endian signed integer and the remainder is decoded as UTF-8
(invalid sequences ignored) and stripped. -/
def parse_ack (packet : List Nat) : Option (Int × List Nat) :=
  if packet.length < SEQ_ID_SIZE then none
  else
    some (intFromBytes4 (packet.take SEQ_ID_SIZE),
          pyStrip (utf8DecodeIgnore (packet.drop SEQ_ID_SIZE)))

/-! ## RTT estimation (`senders/metrics.py`, class `RTTTracker`)

Python floats are modelled as exact rationals. -/

/-- State of `RTTTracker`. -/
structure RTTTracker where
  alpha : ℚ
  beta : ℚ
  min_rto : ℚ
  srtt : Option ℚ
  rttvar : Option ℚ
  rtt_samples : List ℚ
  deriving DecidableEq

/-- `RTTTracker()` with the default RFC 6298 parameters
(`alpha = 0.125`, `beta = 0.25`, `min_rto = 0.2`). -/
def RTTTracker.mk0 : RTTTracker :=
  { alpha := 1 / 8, beta := 1 / 4, min_rto := 1 / 5,
    srtt := none, rttvar := none, rtt_samples := [] }

/-- `RTTTracker.update(sample_rtt, is_retransmission)`. -/
def RTTTracker.update (t : RTTTracker) (sample_rtt : ℚ)
    (is_retransmission : Bool) : RTTTracker :=
  if is_retransmission then t
  else
    let t1 := { t with rtt_samples := t.rtt_samples ++ [sample_rtt] }
    match t1.srtt, t1.rttvar with
    | some s, some v =>
      { t1 with
        rttvar := some ((1 - t1.beta) * v + t1.beta * |s - sample_rtt|),
        srtt := some ((1 - t1.alpha) * s + t1.alpha * sample_rtt) }
    | _, _ =>
      { t1 with srtt := some sample_rtt, rttvar := some (sample_rtt / 2) }

/-- `RTTTracker.get_rto()`. -/
def RTTTracker.get_rto (t : RTTTracker) : ℚ :=
  match t.srtt, t.rttvar with
  | some s, some v => max (s + 4 * v) t.min_rto
  | _, _ => 1

/-- A sequence of `update` calls (sample, is_retransmission), oldest
first. -/
def RTTTracker.applyUpdates (t : RTTTracker) (us : List (ℚ × Bool)) :
    RTTTracker :=
  us.foldl (fun acc u => acc.update u.1 u.2) t

/-! ## Payload chunking and the EOF marker
(`CustomProtocol.send_packets`, `senders/custom_protocol.py`)

`send_packets` splits the payload into `MSS`-sized chunks with
`range(0, len(payload_data), MSS)` and, after the send loop, transmits
`make_packet(total_packets * MSS, b"")` as the EOF marker. -/

/-- Fuel-based chunking step (fuel `≥ length` makes it irrelevant). -/
def chunkAux : Nat → List Nat → List (List Nat)
  | 0, _ => []
  | Nat.succ _, [] => []
  | Nat.succ f, p => p.take MSS :: chunkAux f (p.drop MSS)

/-- The list `chunks` built by `send_packets`: the payload split into
`MSS`-sized segments, the last possibly shorter. -/
def chunkPayload (p : List Nat) : List (List Nat) :=
  chunkAux p.length p

/-- `total_packets = len(chunks)`. -/
def totalPackets (p : List Nat) : Nat := (chunkPayload p).length

/-- The sequence id of the EOF marker sent after the loop:
`eof_seq = total_packets * MSS`. -/
def eofSeq (p : List Nat) : Nat := totalPackets p * MSS

/-! ## Congestion-control engine (`senders/custom_protocol.py`)

The tuning attributes set in `__init__` and never reassigned are modelled
as constants; the mutable congestion state is a structure. -/

/-- `self.rtt_gradient_threshold = 1.2`. -/
def rtt_gradient_threshold : ℚ := 6 / 5

/-- `self.ca_increment = 2.0`. -/
def ca_increment : ℚ := 2

/-- `self.delay_reduction_factor = 0.95`. -/
def delay_reduction_factor : ℚ := 19 / 20

/-- `self.initial_window = 10`. -/
def initial_window : ℚ := 10

/-- `self.bdp_multiplier = 1.0`. -/
def bdp_multiplier : ℚ := 1

/-- The mutable congestion-control state of `CustomProtocol`. -/
structure PState where
  cwnd : ℚ
  ssthresh : ℚ
  in_slow_start : Bool
  in_fast_recovery : Bool
  recovery_point : Int
  estimated_bdp : ℚ
  base_rtt : Option ℚ
  current_rtt : Option ℚ
  rtt_history : List ℚ
  rtt_gradient : ℚ
  throughput_history : List ℚ
  in_flight_keys : List Int
  next_seq : Int
  deriving DecidableEq

/-- The state set up by `CustomProtocol.__init__`. -/
def PState.init : PState :=
  { cwnd := 10, ssthresh := 32, in_slow_start := true,
    in_fast_recovery := false, recovery_point := 0, estimated_bdp := 32,
    base_rtt := none, current_rtt := none, rtt_history := [],
    rtt_gradient := 0, throughput_history := [], in_flight_keys := [],
    next_seq := 0 }

/-- `collections.deque(maxlen = m).append`: append on the right, dropping
from the left when full. -/
def dequeAppend (m : Nat) (l : List ℚ) (x : ℚ) : List ℚ :=
  let l2 := l ++ [x]
  if m < l2.length then l2.drop (l2.length - m) else l2

/-- `list(h)[-n:]` — the last `min n (length h)` elements. -/
def lastN (n : Nat) (l : List ℚ) : List ℚ := l.drop (l.length - n)

/-- `list(h)[:-n]` — everything but the last `n` elements. -/
def dropLastN (n : Nat) (l : List ℚ) : List ℚ := l.take (l.length - n)

/-- `CustomProtocol.estimate_bdp()`: returns the value together with the
state (the method smooths `self.estimated_bdp` in place). -/
def PState.estimate_bdp (s : PState) : ℚ × PState :=
  match s.current_rtt with
  | none => (s.estimated_bdp, s)
  | some rtt =>
    if rtt = 0 then (s.estimated_bdp, s)
    else
      let s1 :=
        if 0 < s.throughput_history.length then
          let avg_throughput :=
            s.throughput_history.sum / s.throughput_history.length
          let packets_per_sec := avg_throughput / (MSS : ℚ)
          let bdp := packets_per_sec * rtt
          { s with estimated_bdp :=
              (4 / 5) * s.estimated_bdp + (1 / 5) * bdp }
        else s
      (max (s1.estimated_bdp * bdp_multiplier) 10, s1)

/-- `CustomProtocol.update_rtt_signals(sample_rtt)`. -/
def PState.update_rtt_signals (s : PState) (sample_rtt : ℚ) : PState :=
  let s1 := { s with current_rtt := some sample_rtt,
                     rtt_history := dequeAppend 10 s.rtt_history sample_rtt }
  let s2 :=
    match s1.base_rtt with
    | none => { s1 with base_rtt := some sample_rtt }
    | some b =>
      if sample_rtt < b then { s1 with base_rtt := some sample_rtt } else s1
  match s2.base_rtt with
  | some b =>
    if 2 ≤ s2.rtt_history.length then
      let recent_avg := (lastN 3 s2.rtt_history).sum /
        (min 3 s2.rtt_history.length : ℚ)
      if 0 < b then { s2 with rtt_gradient := recent_avg / b } else s2
    else s2
  | none => s2

/-- `CustomProtocol.detect_phase_transition()`. -/
def PState.detect_phase_transition (s : PState) : Bool :=
  if s.rtt_history.length < 3 ∨ s.throughput_history.length < 3 then false
  else
    let recent_rtt := (lastN 3 s.rtt_history).sum / 3
    let older_rtt := (dropLastN 3 s.rtt_history).sum /
      (max 1 (s.rtt_history.length - 3) : ℚ)
    if 0 < older_rtt ∧ 3 / 10 < |recent_rtt - older_rtt| / older_rtt then
      true
    else if 3 ≤ s.throughput_history.length then
      let recent_tput := (lastN 2 s.throughput_history).sum / 2
      let older_tput :=
        if 2 < s.throughput_history.length then s.throughput_history.headD 0
        else recent_tput
      if 0 < older_tput ∧ 2 / 5 < |recent_tput - older_tput| / older_tput
      then true
      else false
    else false

/-- First block of `update_window_on_ack`: push the throughput reading
`self.metrics.get_throughput()` (an input from the metrics accumulator:
`some t` models `get_duration() > 0` with throughput `t`, `none` models
`get_duration() == 0`, in which case nothing is appended). -/
def PState.uwoa_push_tput (s : PState) (tput? : Option ℚ) : PState :=
  match tput? with
  | some t => { s with
      throughput_history := dequeAppend 5 s.throughput_history t }
  | none => s

/-- Second block of `update_window_on_ack`: on a detected phase
transition, refresh the BDP estimate, reset `ssthresh`, and possibly
re-enter slow start. -/
def PState.uwoa_phase (s : PState) : PState :=
  if s.detect_phase_transition then
    let vb : ℚ × PState := s.estimate_bdp
    let sb : PState := { vb.2 with estimated_bdp := vb.1 }
    let sb2 : PState := { sb with ssthresh := max sb.estimated_bdp 16 }
    if sb2.cwnd < sb2.ssthresh then { sb2 with in_slow_start := true }
    else sb2
  else s

/-- Third block of `update_window_on_ack`: slow-start growth with
HyStart-style early exit, or congestion-avoidance growth. -/
def PState.uwoa_grow (s : PState) : PState :=
  if s.in_slow_start then
    let increment := min 2 (max 1 (s.estimated_bdp / max s.cwnd 1))
    let sc := { s with cwnd := s.cwnd + increment }
    if sc.ssthresh ≤ sc.cwnd then { sc with in_slow_start := false }
    else if rtt_gradient_threshold < sc.rtt_gradient ∧
        sc.base_rtt ≠ none then
      { sc with ssthresh := max sc.cwnd sc.ssthresh,
                in_slow_start := false }
    else sc
  else { s with cwnd := s.cwnd + ca_increment / s.cwnd }

/-- Fourth block of `update_window_on_ack`: delay-based proactive
multiplicative reduction, clamped below at `1.0`. -/
def PState.uwoa_delay (s : PState) : PState :=
  if 23 / 20 < s.rtt_gradient ∧ s.in_slow_start = false then
    { s with cwnd := max (s.cwnd * delay_reduction_factor) 1 }
  else s

/-- `CustomProtocol.update_window_on_ack(ack_id)`: the four sequential
blocks of the method body. -/
def PState.update_window_on_ack (s : PState) (tput? : Option ℚ) : PState :=
  (((s.uwoa_push_tput tput?).uwoa_phase).uwoa_grow).uwoa_delay

/-- `CustomProtocol.handle_loss(is_timeout)`. -/
def PState.handle_loss (s : PState) (is_timeout : Bool) : PState :=
  if is_timeout then
    let st := max (s.cwnd / 2) 2
    { s with ssthresh := st, cwnd := max st initial_window,
             in_slow_start := false, in_fast_recovery := false }
  else
    let st := max (s.cwnd / 2) 2
    { s with ssthresh := st, cwnd := st + 3, in_fast_recovery := true,
             recovery_point :=
               match s.in_flight_keys.max? with
               | some m => m
               | none => s.next_seq }

/-- Fast-recovery window inflation on a duplicate ACK
(`self.cwnd += 1.0`, `send_packets` line 238). -/
def PState.fr_inflate (s : PState) : PState := { s with cwnd := s.cwnd + 1 }

/-- Fast-recovery exit on a new ACK at or above the recovery point
(`self.cwnd = self.ssthresh; self.in_fast_recovery = False`,
`send_packets` lines 268-269). -/
def PState.fr_exit (s : PState) : PState :=
  { s with cwnd := s.ssthresh, in_fast_recovery := false }

/-- States reachable from `__init__` by the operations of the engine that
touch the congestion window or its inputs. -/
inductive Reachable : PState → Prop
  | init : Reachable PState.init
  | rtt_signals (s : PState) (r : ℚ) :
      Reachable s → Reachable (s.update_rtt_signals r)
  | ack (s : PState) (t : Option ℚ) :
      Reachable s → Reachable (s.update_window_on_ack t)
  | loss (s : PState) (b : Bool) :
      Reachable s → Reachable (s.handle_loss b)
  | inflate (s : PState) : Reachable s → Reachable s.fr_inflate
  | fr_exit (s : PState) : Reachable s → Reachable s.fr_exit

/-! ## Conditions named by the phase-detector specification -/

/-- The RTT-jump condition of the phase detector: the relative difference
between the mean of the last three RTT samples and the mean of the earlier
samples (computed as `sum(earlier) / max(1, n - 3)`) exceeds `0.3`, with
the earlier mean required positive. -/
def RttJumpCond (s : PState) : Prop :=
  let recent := (lastN 3 s.rtt_history).sum / 3
  let older := (dropLastN 3 s.rtt_history).sum /
    (max 1 (s.rtt_history.length - 3) : ℚ)
  0 < older ∧ 3 / 10 < |recent - older| / older

instance (s : PState) : Decidable (RttJumpCond s) := by
  unfold RttJumpCond; infer_instance

/-- The throughput-jump condition of the phase detector: the relative
difference between the mean of the last two throughput entries and
`throughput_history[0]` exceeds `0.4`, with the baseline required
positive. -/
def TputJumpCond (s : PState) : Prop :=
  let recent := (lastN 2 s.throughput_history).sum / 2
  let older := s.throughput_history.headD 0
  0 < older ∧ 2 / 5 < |recent - older| / older

instance (s : PState) : Decidable (TputJumpCond s) := by
  unfold TputJumpCond; infer_instance

/-- A state whose throughput history is `[1000, 1000, 1000, 500, 500]`
while no RTT sample has been recorded. -/
def throughputOnlyState : PState :=
  { PState.init with throughput_history := [1000, 1000, 1000, 500, 500] }

/-! ## Helper lemmas about the RTT estimator -/

theorem RTTTracker.update_true (t : RTTTracker) (r : ℚ) :
    t.update r true = t := by
  simp [RTTTracker.update]

theorem RTTTracker.update_min_rto (t : RTTTracker) (r : ℚ) (b : Bool) :
    (t.update r b).min_rto = t.min_rto := by
  unfold RTTTracker.update
  cases b <;> simp <;> split <;> rfl

theorem RTTTracker.update_isSome (t : RTTTracker) (r : ℚ) (b : Bool)
    (h : t.srtt.isSome ∧ t.rttvar.isSome) :
    (t.update r b).srtt.isSome ∧ (t.update r b).rttvar.isSome := by
  unfold RTTTracker.update
  cases b <;> simp_all <;> split <;> simp

theorem RTTTracker.update_false_isSome (t : RTTTracker) (r : ℚ) :
    (t.update r false).srtt.isSome ∧ (t.update r false).rttvar.isSome := by
  unfold RTTTracker.update
  simp only [Bool.false_eq_true, if_false]
  split <;> simp

theorem RTTTracker.applyUpdates_min_rto (t : RTTTracker)
    (us : List (ℚ × Bool)) : (t.applyUpdates us).min_rto = t.min_rto := by
  induction us generalizing t with
  | nil => rfl
  | cons u tl ih =>
    simp only [RTTTracker.applyUpdates, List.foldl_cons] at ih ⊢
    rw [ih, RTTTracker.update_min_rto]

theorem RTTTracker.applyUpdates_isSome (t : RTTTracker)
    (us : List (ℚ × Bool)) (h : t.srtt.isSome ∧ t.rttvar.isSome) :
    (t.applyUpdates us).srtt.isSome ∧ (t.applyUpdates us).rttvar.isSome := by
  induction us generalizing t with
  | nil => exact h
  | cons u tl ih =>
    simp only [RTTTracker.applyUpdates, List.foldl_cons] at ih ⊢
    exact ih _ (RTTTracker.update_isSome _ _ _ h)

theorem RTTTracker.applyUpdates_isSome_of_accepted (t : RTTTracker)
    (us : List (ℚ × Bool)) (h : ∃ u ∈ us, u.2 = false) :
    (t.applyUpdates us).srtt.isSome ∧ (t.applyUpdates us).rttvar.isSome := by
  induction us generalizing t with
  | nil => simp at h
  | cons u tl ih =>
    simp only [RTTTracker.applyUpdates, List.foldl_cons] at ih ⊢
    by_cases hu : u.2 = false
    · rw [hu]
      exact RTTTracker.applyUpdates_isSome _ tl
        (RTTTracker.update_false_isSome t u.1)
    · obtain ⟨w, hw, hw2⟩ := h
      rcases List.mem_cons.mp hw with rfl | hwtl
      · exact absurd hw2 hu
      · exact ih _ ⟨w, hwtl, hw2⟩

theorem RTTTracker.applyUpdates_all_retrans (t : RTTTracker)
    (us : List (ℚ × Bool)) (h : ∀ u ∈ us, u.2 = true) :
    t.applyUpdates us = t := by
  induction us generalizing t with
  | nil => rfl
  | cons u tl ih =>
    simp only [RTTTracker.applyUpdates, List.foldl_cons] at ih ⊢
    have hu : u.2 = true := h u (by simp)
    rw [hu, RTTTracker.update_true]
    exact ih _ (fun w hw => h w (List.mem_cons_of_mem _ hw))

/-! ## Claims about the RTT estimator -/

/-- Claim C5: Karn's rule as a frame property — for every estimator state
and every sample, `update(sample, is_retransmission = true)` leaves SRTT,
RTTVAR, the stored sample list (indeed the whole state) unchanged, and
hence `current_rto()` is unchanged. -/
theorem karn_rule_frame (t : RTTTracker) (r : ℚ) :
    (t.update r true).srtt = t.srtt ∧
    (t.update r true).rttvar = t.rttvar ∧
    (t.update r true).rtt_samples = t.rtt_samples ∧
    t.update r true = t ∧
    (t.update r true).get_rto = t.get_rto := by
  rw [RTTTracker.update_true]
  exact ⟨rfl, rfl, rfl, rfl, rfl⟩

/-- Claim C6: a non-retransmission sample initialises `SRTT ← sample` and
`RTTVAR ← sample / 2` when no prior sample exists; otherwise it updates
RTTVAR first, from the pre-update SRTT (`RTTVAR ← (1 − β)·RTTVAR +
β·|SRTT_old − sample|`) and then `SRTT ← (1 − α)·SRTT_old + α·sample`,
with `α = 1/8` and `β = 1/4`. -/
theorem rtt_update_formulas (t : RTTTracker) (r : ℚ)
    (ha : t.alpha = 1 / 8) (hb : t.beta = 1 / 4) :
    (t.srtt = none →
      (t.update r false).srtt = some r ∧
      (t.update r false).rttvar = some (r / 2)) ∧
    (∀ s v, t.srtt = some s → t.rttvar = some v →
      (t.update r false).rttvar =
        some ((1 - 1 / 4) * v + 1 / 4 * |s - r|) ∧
      (t.update r false).srtt = some ((1 - 1 / 8) * s + 1 / 8 * r)) := by
  unfold RTTTracker.update
  simp only [Bool.false_eq_true, if_false]
  constructor
  · intro hnone
    split
    · next s v hs hv => rw [hnone] at hs; cases hs
    · exact ⟨rfl, rfl⟩
  · intro s v hs hv
    split
    · next s2 v2 hs2 hv2 =>
      rw [hs] at hs2
      rw [hv] at hv2
      cases hs2
      cases hv2
      rw [ha, hb]
      exact ⟨rfl, rfl⟩
    · next hbad => exact (hbad s v (by simpa using hs) (by simpa using hv)).elim

/-- Witness for C6 at the freshly constructed tracker and sample `2`. -/
theorem rtt_update_formulas_witness :
    (RTTTracker.mk0.update 2 false).srtt = some 2 ∧
    (RTTTracker.mk0.update 2 false).rttvar = some (2 / 2) :=
  (rtt_update_formulas RTTTracker.mk0 2 rfl rfl).1 rfl

/-- Claim C7: `current_rto()` is exactly `1` while no sample has been
accepted (every update was a retransmission), and after any update
sequence containing an accepted sample it equals
`max(SRTT + 4·RTTVAR, 0.2)` and in particular is at least the floor
`0.2`. -/
theorem rto_floor (us : List (ℚ × Bool)) :
    ((∀ u ∈ us, u.2 = true) →
      (RTTTracker.mk0.applyUpdates us).get_rto = 1) ∧
    ((∃ u ∈ us, u.2 = false) →
      ∃ s v, (RTTTracker.mk0.applyUpdates us).srtt = some s ∧
        (RTTTracker.mk0.applyUpdates us).rttvar = some v ∧
        (RTTTracker.mk0.applyUpdates us).get_rto = max (s + 4 * v) (1 / 5) ∧
        1 / 5 ≤ (RTTTracker.mk0.applyUpdates us).get_rto) := by
  constructor
  · intro h
    rw [RTTTracker.applyUpdates_all_retrans _ _ h]
    rfl
  · intro h
    obtain ⟨h1, h2⟩ := RTTTracker.applyUpdates_isSome_of_accepted
      RTTTracker.mk0 us h
    obtain ⟨s, hs⟩ := Option.isSome_iff_exists.mp h1
    obtain ⟨v, hv⟩ := Option.isSome_iff_exists.mp h2
    have hmin : (RTTTracker.mk0.applyUpdates us).min_rto = 1 / 5 :=
      RTTTracker.applyUpdates_min_rto _ _
    refine ⟨s, v, hs, hv, ?_, ?_⟩
    · unfold RTTTracker.get_rto
      rw [hs, hv, hmin]
    · unfold RTTTracker.get_rto
      rw [hs, hv, hmin]
      exact le_max_right _ _

/-- Witness for C7: a single accepted sample keeps the RTO at or above
the floor. -/
theorem rto_floor_witness :
    1 / 5 ≤ (RTTTracker.mk0.applyUpdates [(1, false)]).get_rto := by
  obtain ⟨s, v, hs, hv, he, hge⟩ := (rto_floor [((1 : ℚ), false)]).2
    ⟨((1 : ℚ), false), by simp, rfl⟩
  exact hge

/-! ## Claims about loss handling and the packet size -/

/-- Claim C8: `handle_loss(is_timeout = true)` sets
`ssthresh ← max(cwnd/2, 2)`, `cwnd ← max(ssthresh_new, 10)` and clears
both phase flags; `handle_loss(is_timeout = false)` sets
`ssthresh ← max(cwnd/2, 2)`, `cwnd ← ssthresh_new + 3` and enters fast
recovery; in both cases `ssthresh ≥ 2` afterwards. -/
theorem handle_loss_post (s : PState) :
    ((s.handle_loss true).ssthresh = max (s.cwnd / 2) 2 ∧
     (s.handle_loss true).cwnd = max (s.handle_loss true).ssthresh 10 ∧
     (s.handle_loss true).in_slow_start = false ∧
     (s.handle_loss true).in_fast_recovery = false) ∧
    ((s.handle_loss false).ssthresh = max (s.cwnd / 2) 2 ∧
     (s.handle_loss false).cwnd = (s.handle_loss false).ssthresh + 3 ∧
     (s.handle_loss false).in_fast_recovery = true) ∧
    (∀ b : Bool, 2 ≤ (s.handle_loss b).ssthresh) := by
  refine ⟨?_, ?_, ?_⟩
  · simp [PState.handle_loss, initial_window]
  · simp [PState.handle_loss]
  · intro b
    cases b <;> simp [PState.handle_loss]

/-- Claim C10: `make_packet` succeeds exactly on sequence ids
representable as a 4-byte signed integer, and a produced packet has
`4 + min(len(payload), MSS)` bytes, hence at most `PACKET_SIZE` bytes. -/
theorem make_packet_size (seq_id : Int) (payload : List Nat) :
    (-(2 ^ 31) ≤ seq_id ∧ seq_id < 2 ^ 31 →
      ∃ pkt, make_packet seq_id payload = some pkt ∧
        pkt.length = SEQ_ID_SIZE + min payload.length MSS ∧
        pkt.length ≤ PACKET_SIZE) ∧
    (¬(-(2 ^ 31) ≤ seq_id ∧ seq_id < 2 ^ 31) →
      make_packet seq_id payload = none) := by
  constructor
  · intro h
    have hsome : make_packet seq_id payload =
        some (natToBytes4 ((seq_id % 2 ^ 32).toNat) ++
          payload.take MSS) := by
      unfold make_packet intToBytes4
      rw [if_pos h]
      rfl
    refine ⟨_, hsome, ?_, ?_⟩
    · simp only [natToBytes4, List.length_append, List.length_take,
        List.length_cons, List.length_nil, SEQ_ID_SIZE]
      omega
    · simp only [natToBytes4, List.length_append, List.length_take,
        List.length_cons, List.length_nil]
      have hle : min MSS payload.length ≤ MSS := min_le_left _ _
      have hM : MSS = 1020 := rfl
      have hP : PACKET_SIZE = 1024 := rfl
      omega
  · intro h
    unfold make_packet intToBytes4
    rw [if_neg h]
    rfl

/-- Witness for C10: an in-range and an out-of-range sequence id. -/
theorem make_packet_size_witness :
    (∃ pkt, make_packet 0 [1, 2, 3] = some pkt ∧
      pkt.length = SEQ_ID_SIZE + min ([1, 2, 3] : List Nat).length MSS ∧
      pkt.length ≤ PACKET_SIZE) ∧
    make_packet (2 ^ 31) [] = none :=
  ⟨(make_packet_size 0 [1, 2, 3]).1 (by norm_num),
   (make_packet_size (2 ^ 31) []).2 (by norm_num)⟩

/-! ## The EOF marker -/

theorem chunkAux_length (f : Nat) : ∀ (p : List Nat), p.length ≤ f →
    (chunkAux f p).length = (p.length + (MSS - 1)) / MSS := by
  induction f with
  | zero =>
    intro p hp
    have hnil : p = [] := List.eq_nil_of_length_eq_zero (Nat.le_zero.mp hp)
    subst hnil
    rfl
  | succ f ih =>
    intro p hp
    cases p with
    | nil => rfl
    | cons a t =>
      show (List.take MSS (a :: t) ::
        chunkAux f (List.drop MSS (a :: t))).length = _
      simp only [List.length_cons]
      rw [ih _ (by
        have hM : MSS = 1020 := rfl
        simp only [List.length_drop, List.length_cons] at hp ⊢
        omega)]
      simp only [List.length_drop, List.length_cons]
      have hM : MSS = 1020 := rfl
      rw [hM]
      omega

/-- Claim C1, counterexample: for the one-byte payload `[0]` the
transmitted EOF marker has `seq_id = 1020 = MSS`, not
`len(payload) = 1`. -/
theorem eof_seq_counterexample :
    eofSeq [0] = 1020 ∧ ([0] : List Nat).length = 1 ∧ eofSeq [0] ≠ 1 := by
  refine ⟨rfl, rfl, ?_⟩
  decide

/-- Claim C1, amended: after the send loop the sender transmits exactly
one EOF marker, a data packet with empty payload whose seq_id is
`total_packets · MSS = ⌈len(payload) / MSS⌉ · MSS`; this equals
`len(payload)` exactly when the payload length is a multiple of MSS. -/
theorem eof_seq_value (p : List Nat) :
    eofSeq p = ((p.length + (MSS - 1)) / MSS) * MSS ∧
    (eofSeq p = p.length ↔ p.length % MSS = 0) := by
  have h1 : eofSeq p = ((p.length + (MSS - 1)) / MSS) * MSS := by
    unfold eofSeq totalPackets chunkPayload
    rw [chunkAux_length p.length p le_rfl]
  refine ⟨h1, ?_⟩
  rw [h1]
  have hM : MSS = 1020 := rfl
  rw [hM]
  constructor
  · intro h
    omega
  · intro h
    omega

/-- Witness for C1 at a payload whose length is a multiple of MSS. -/
theorem eof_seq_value_witness :
    eofSeq (List.replicate 2040 7) = (List.replicate 2040 7).length :=
  (eof_seq_value (List.replicate 2040 7)).2.mpr
    (by norm_num [MSS, PACKET_SIZE, SEQ_ID_SIZE])

/-! ## The phase detector -/

/-- Claim C2, counterexample: with throughput history
`[1000, 1000, 1000, 500, 500]` and an empty RTT history the throughput
condition (relative difference `1/2 > 2/5`) holds, yet
`detect_phase_transition` returns false — the detector demands at least
three RTT samples before it looks at throughput at all. -/
theorem detect_phase_counterexample :
    throughputOnlyState.detect_phase_transition = false ∧
    3 ≤ throughputOnlyState.throughput_history.length ∧
    TputJumpCond throughputOnlyState ∧
    throughputOnlyState.rtt_history = [] := by
  refine ⟨rfl, by decide, ?_, rfl⟩
  unfold TputJumpCond throughputOnlyState PState.init lastN
  norm_num

/-- Claim C2, amended: the phase detector returns true iff the RTT history
has at least 3 entries AND the throughput history has at least 3 entries,
and then either the RTT condition or the throughput condition holds;
neither condition alone fires when the other history is shorter than 3. -/
theorem detect_phase_characterization (s : PState) :
    s.detect_phase_transition = true ↔
      3 ≤ s.rtt_history.length ∧ 3 ≤ s.throughput_history.length ∧
        (RttJumpCond s ∨ TputJumpCond s) := by
  unfold PState.detect_phase_transition RttJumpCond TputJumpCond
  split_ifs with h1 h2 h3 h4 <;> simp_all <;> omega

/-- Witness for C2: with three RTT samples present, the throughput
condition makes the detector fire. -/
theorem detect_phase_characterization_witness :
    PState.detect_phase_transition
      { PState.init with
        rtt_history := [1, 1, 1]
        throughput_history := [1000, 1000, 1000, 500, 500] } = true :=
  (detect_phase_characterization _).mpr
    ⟨by decide, by decide, Or.inr (by norm_num [TputJumpCond, lastN])⟩

/-! ## The congestion-window invariant -/

theorem estimate_bdp_frame (s : PState) :
    (s.estimate_bdp).2.cwnd = s.cwnd ∧
    (s.estimate_bdp).2.ssthresh = s.ssthresh := by
  unfold PState.estimate_bdp
  split
  · exact ⟨rfl, rfl⟩
  · split_ifs <;> exact ⟨rfl, rfl⟩

theorem push_tput_frame (s : PState) (t? : Option ℚ) :
    (s.uwoa_push_tput t?).cwnd = s.cwnd ∧
    (s.uwoa_push_tput t?).ssthresh = s.ssthresh := by
  cases t? <;> exact ⟨rfl, rfl⟩

theorem uwoa_phase_inv (s : PState) (h1 : 1 ≤ s.cwnd)
    (h2 : 2 ≤ s.ssthresh) :
    1 ≤ s.uwoa_phase.cwnd ∧ 2 ≤ s.uwoa_phase.ssthresh := by
  have hf := (estimate_bdp_frame s).1
  simp only [PState.uwoa_phase]
  split_ifs <;> (try dsimp only)
  · exact ⟨le_of_le_of_eq h1 hf.symm,
      le_trans (by norm_num) (le_max_right _ 16)⟩
  · exact ⟨le_of_le_of_eq h1 hf.symm,
      le_trans (by norm_num) (le_max_right _ 16)⟩
  · exact ⟨h1, h2⟩

theorem uwoa_grow_inv (s : PState) (h1 : 1 ≤ s.cwnd)
    (h2 : 2 ≤ s.ssthresh) :
    1 ≤ s.uwoa_grow.cwnd ∧ 2 ≤ s.uwoa_grow.ssthresh := by
  have hinc : (1 : ℚ) ≤ min 2 (max 1 (s.estimated_bdp / max s.cwnd 1)) :=
    le_min (by norm_num) (le_max_left _ _)
  simp only [PState.uwoa_grow]
  split_ifs <;> (try dsimp only) <;> refine ⟨?_, ?_⟩
  · linarith
  · exact h2
  · linarith
  · exact le_trans h2 (le_max_right _ _)
  · linarith
  · exact h2
  · have hpos : (0 : ℚ) ≤ ca_increment / s.cwnd :=
      div_nonneg (by norm_num [ca_increment]) (by linarith)
    linarith
  · exact h2

theorem uwoa_delay_inv (s : PState) (h1 : 1 ≤ s.cwnd)
    (h2 : 2 ≤ s.ssthresh) :
    1 ≤ s.uwoa_delay.cwnd ∧ 2 ≤ s.uwoa_delay.ssthresh := by
  simp only [PState.uwoa_delay]
  split_ifs <;> (try dsimp only)
  · exact ⟨le_max_right _ _, h2⟩
  · exact ⟨h1, h2⟩

theorem rtt_signals_frame (s : PState) (r : ℚ) :
    (s.update_rtt_signals r).cwnd = s.cwnd ∧
    (s.update_rtt_signals r).ssthresh = s.ssthresh := by
  simp only [PState.update_rtt_signals]
  constructor <;> (repeat' split) <;> rfl

theorem handle_loss_inv (s : PState) (b : Bool) (h1 : 1 ≤ s.cwnd)
    (h2 : 2 ≤ s.ssthresh) :
    1 ≤ (s.handle_loss b).cwnd ∧ 2 ≤ (s.handle_loss b).ssthresh := by
  unfold PState.handle_loss
  have hst : (2 : ℚ) ≤ max (s.cwnd / 2) 2 := le_max_right _ _
  split_ifs
  · refine ⟨?_, hst⟩
    show 1 ≤ max (max (s.cwnd / 2) 2) initial_window
    exact le_trans (by norm_num [initial_window]) (le_max_right _ _)
  · refine ⟨?_, hst⟩
    show 1 ≤ max (s.cwnd / 2) 2 + 3
    linarith

/-- Claim C9: starting from the initial state (`cwnd = 10`), every engine
operation that mutates the congestion window — window growth on a new
ACK, delay-based multiplicative reduction, loss handling for timeout and
for triple-duplicate ACK, fast-recovery inflation and fast-recovery exit
— preserves `cwnd ≥ 1`. -/
theorem cwnd_invariant (s : PState) (h : Reachable s) : 1 ≤ s.cwnd := by
  have main : ∀ u, Reachable u → 1 ≤ u.cwnd ∧ 2 ≤ u.ssthresh := by
    intro u hu
    induction hu with
    | init => exact ⟨by norm_num [PState.init], by norm_num [PState.init]⟩
    | rtt_signals s r hs ih =>
      have hf := rtt_signals_frame s r
      exact ⟨le_of_le_of_eq ih.1 hf.1.symm, le_of_le_of_eq ih.2 hf.2.symm⟩
    | ack s t hs ih =>
      have p1 := push_tput_frame s t
      have hA : 1 ≤ (s.uwoa_push_tput t).cwnd ∧
          2 ≤ (s.uwoa_push_tput t).ssthresh :=
        ⟨le_of_le_of_eq ih.1 p1.1.symm, le_of_le_of_eq ih.2 p1.2.symm⟩
      have hB := uwoa_phase_inv _ hA.1 hA.2
      have hC := uwoa_grow_inv _ hB.1 hB.2
      exact uwoa_delay_inv _ hC.1 hC.2
    | loss s b hs ih => exact handle_loss_inv s b ih.1 ih.2
    | inflate s hs ih =>
      refine ⟨?_, ih.2⟩
      show 1 ≤ s.cwnd + 1
      linarith [ih.1]
    | fr_exit s hs ih =>
      refine ⟨?_, ih.2⟩
      show 1 ≤ s.ssthresh
      linarith [ih.2]
  exact (main s h).1

/-- Witness for C9 at the initial state. -/
theorem cwnd_invariant_witness : 1 ≤ PState.init.cwnd :=
  cwnd_invariant PState.init Reachable.init

/-! ## UTF-8 decode/encode round trip -/

theorem utf8DecodeAux_nil (f : Nat) : utf8DecodeAux f [] = [] := by
  cases f <;> rfl

theorem utf8DecodeAux_fuel (f : Nat) :
    ∀ (g : Nat) (l : List Nat), l.length ≤ f → l.length ≤ g →
    utf8DecodeAux f l = utf8DecodeAux g l := by
  induction f with
  | zero =>
    intro g l h1 h2
    have hnil : l = [] := List.eq_nil_of_length_eq_zero (Nat.le_zero.mp h1)
    subst hnil
    rw [utf8DecodeAux_nil, utf8DecodeAux_nil]
  | succ f ih =>
    intro g l h1 h2
    cases l with
    | nil => rw [utf8DecodeAux_nil, utf8DecodeAux_nil]
    | cons b rest =>
      cases g with
      | zero => simp at h2
      | succ g0 =>
        simp only [List.length_cons] at h1 h2
        simp only [utf8DecodeAux]
        split_ifs with hb1 hb2 hb3 hb4
        · rw [ih g0 rest (by omega) (by omega)]
        · cases rest with
          | nil => rfl
          | cons b2 r2 =>
            simp only [List.length_cons] at h1 h2
            dsimp only
            split_ifs with hc
            · rw [ih g0 r2 (by omega) (by omega)]
            · rw [ih g0 (b2 :: r2) (by simp; omega) (by simp; omega)]
        · cases rest with
          | nil => rw [utf8DecodeAux_nil, utf8DecodeAux_nil]
          | cons b2 rest2 =>
            cases rest2 with
            | nil =>
              simp only [List.length_cons] at h1 h2
              dsimp only
              rw [ih g0 [b2] (by simp; omega) (by simp; omega)]
            | cons b3 r3 =>
              simp only [List.length_cons] at h1 h2
              dsimp only
              split_ifs with hc
              · rw [ih g0 r3 (by omega) (by omega)]
              · rw [ih g0 (b2 :: b3 :: r3) (by simp; omega) (by simp; omega)]
        · cases rest with
          | nil => rw [utf8DecodeAux_nil, utf8DecodeAux_nil]
          | cons b2 rest2 =>
            cases rest2 with
            | nil =>
              simp only [List.length_cons] at h1 h2
              dsimp only
              rw [ih g0 [b2] (by simp; omega) (by simp; omega)]
            | cons b3 rest3 =>
              cases rest3 with
              | nil =>
                simp only [List.length_cons] at h1 h2
                dsimp only
                rw [ih g0 [b2, b3] (by simp; omega) (by simp; omega)]
              | cons b4 r4 =>
                simp only [List.length_cons] at h1 h2
                dsimp only
                split_ifs with hc
                · rw [ih g0 r4 (by omega) (by omega)]
                · rw [ih g0 (b2 :: b3 :: b4 :: r4) (by simp; omega)
                    (by simp; omega)]
        · rw [ih g0 rest (by omega) (by omega)]

theorem utf8DecodeIgnore_cons_ascii (b : Nat) (rest : List Nat)
    (hb : b ≤ 0x7F) :
    utf8DecodeIgnore (b :: rest) = b :: utf8DecodeIgnore rest := by
  unfold utf8DecodeIgnore
  simp only [List.length_cons, utf8DecodeAux]
  rw [if_pos hb]

theorem utf8DecodeIgnore_cons2 (b b2 : Nat) (rest : List Nat)
    (hb : 0xC2 ≤ b ∧ b ≤ 0xDF) (hc : IsCont b2) :
    utf8DecodeIgnore (b :: b2 :: rest) =
      ((b - 0xC0) * 64 + (b2 - 0x80)) :: utf8DecodeIgnore rest := by
  unfold utf8DecodeIgnore
  simp only [List.length_cons, utf8DecodeAux]
  rw [if_neg (by omega : ¬ b ≤ 0x7F), if_pos hb, if_pos hc]
  rw [utf8DecodeAux_fuel (rest.length + 1) rest.length rest
    (by omega) le_rfl]

theorem utf8DecodeIgnore_cons3 (b b2 b3 : Nat) (rest : List Nat)
    (hb : 0xE0 ≤ b ∧ b ≤ 0xEF) (hc : Second2Ok b b2 ∧ IsCont b3) :
    utf8DecodeIgnore (b :: b2 :: b3 :: rest) =
      ((b - 0xE0) * 4096 + (b2 - 0x80) * 64 + (b3 - 0x80)) ::
        utf8DecodeIgnore rest := by
  unfold utf8DecodeIgnore
  simp only [List.length_cons, utf8DecodeAux]
  rw [if_neg (by omega : ¬ b ≤ 0x7F),
    if_neg (by omega : ¬ (0xC2 ≤ b ∧ b ≤ 0xDF)), if_pos hb, if_pos hc]
  rw [utf8DecodeAux_fuel (rest.length + 1 + 1) rest.length rest
    (by omega) le_rfl]

theorem utf8DecodeIgnore_cons4 (b b2 b3 b4 : Nat) (rest : List Nat)
    (hb : 0xF0 ≤ b ∧ b ≤ 0xF4)
    (hc : Second3Ok b b2 ∧ IsCont b3 ∧ IsCont b4) :
    utf8DecodeIgnore (b :: b2 :: b3 :: b4 :: rest) =
      ((b - 0xF0) * 0x40000 + (b2 - 0x80) * 4096 + (b3 - 0x80) * 64 +
          (b4 - 0x80)) :: utf8DecodeIgnore rest := by
  unfold utf8DecodeIgnore
  simp only [List.length_cons, utf8DecodeAux]
  rw [if_neg (by omega : ¬ b ≤ 0x7F),
    if_neg (by omega : ¬ (0xC2 ≤ b ∧ b ≤ 0xDF)),
    if_neg (by omega : ¬ (0xE0 ≤ b ∧ b ≤ 0xEF)), if_pos hb, if_pos hc]
  rw [utf8DecodeAux_fuel (rest.length + 1 + 1 + 1) rest.length rest
    (by omega) le_rfl]

theorem decode_encodeChar (c : Nat) (rest : List Nat) (h : ValidCp c) :
    utf8DecodeIgnore (utf8EncodeChar c ++ rest) =
      c :: utf8DecodeIgnore rest := by
  obtain ⟨hlt, hsur⟩ := h
  by_cases h1 : c < 0x80
  · rw [show utf8EncodeChar c = [c] from by simp [utf8EncodeChar, h1]]
    simp only [List.cons_append, List.nil_append]
    rw [utf8DecodeIgnore_cons_ascii c rest (by omega)]
  · by_cases h2 : c < 0x800
    · rw [show utf8EncodeChar c = [0xC0 + c / 64, 0x80 + c % 64] from by
        simp [utf8EncodeChar, h1, h2]]
      simp only [List.cons_append, List.nil_append]
      rw [utf8DecodeIgnore_cons2 _ _ rest (by omega)
        (by unfold IsCont; omega)]
      rw [show ((0xC0 + c / 64) - 0xC0) * 64 + ((0x80 + c % 64) - 0x80) = c
        from by omega]
    · by_cases h3 : c < 0x10000
      · rw [show utf8EncodeChar c =
            [0xE0 + c / 4096, 0x80 + c / 64 % 64, 0x80 + c % 64] from by
          simp [utf8EncodeChar, h1, h2, h3]]
        simp only [List.cons_append, List.nil_append]
        rw [utf8DecodeIgnore_cons3 _ _ _ rest (by omega)
          ⟨by unfold Second2Ok; omega, by unfold IsCont; omega⟩]
        rw [show ((0xE0 + c / 4096) - 0xE0) * 4096 +
          ((0x80 + c / 64 % 64) - 0x80) * 64 + ((0x80 + c % 64) - 0x80) = c
          from by omega]
      · rw [show utf8EncodeChar c =
            [0xF0 + c / 0x40000, 0x80 + c / 4096 % 64, 0x80 + c / 64 % 64,
             0x80 + c % 64] from by simp [utf8EncodeChar, h1, h2, h3]]
        simp only [List.cons_append, List.nil_append]
        rw [utf8DecodeIgnore_cons4 _ _ _ _ rest (by omega)
          ⟨by unfold Second3Ok; omega, by unfold IsCont; omega,
           by unfold IsCont; omega⟩]
        rw [show ((0xF0 + c / 0x40000) - 0xF0) * 0x40000 +
          ((0x80 + c / 4096 % 64) - 0x80) * 4096 +
          ((0x80 + c / 64 % 64) - 0x80) * 64 + ((0x80 + c % 64) - 0x80) = c
          from by omega]

theorem utf8_decode_encode (s : List Nat) (h : ∀ c ∈ s, ValidCp c) :
    utf8DecodeIgnore (utf8Encode s) = s := by
  induction s with
  | nil => rfl
  | cons c t ih =>
    show utf8DecodeIgnore (utf8EncodeChar c ++ utf8Encode t) = c :: t
    rw [decode_encodeChar c _ (h c (by simp))]
    rw [ih (fun x hx => h x (by simp [hx]))]

theorem intToBytes4_intFromBytes4 (b0 b1 b2 b3 : Nat)
    (h0 : b0 < 256) (h1 : b1 < 256) (h2 : b2 < 256) (h3 : b3 < 256) :
    intToBytes4 (intFromBytes4 [b0, b1, b2, b3]) =
      some [b0, b1, b2, b3] := by
  unfold intFromBytes4 intToBytes4 natToBytes4
  dsimp only
  split_ifs with hge hin hin
  · simp only [Option.some.injEq, List.cons.injEq, and_true,
      show ((2 : ℤ) ^ 32) = 4294967296 from by norm_num]
    omega
  · exfalso
    push_neg at hin
    omega
  · simp only [Option.some.injEq, List.cons.injEq, and_true,
      show ((2 : ℤ) ^ 32) = 4294967296 from by norm_num]
    omega
  · exfalso
    push_neg at hin
    omega

/-! ## Claims about the ACK codec -/

/-- Claim C4: `parse_ack` fails exactly on inputs shorter than 4 bytes;
on longer inputs it returns the first four bytes read as a big-endian
two's-complement signed integer together with the remaining bytes decoded
as UTF-8 with invalid sequences dropped and surrounding whitespace
trimmed. -/
theorem parse_ack_spec (packet : List Nat) :
    (parse_ack packet = none ↔ packet.length < SEQ_ID_SIZE) ∧
    (SEQ_ID_SIZE ≤ packet.length →
      parse_ack packet =
        some (intFromBytes4 (packet.take SEQ_ID_SIZE),
          pyStrip (utf8DecodeIgnore (packet.drop SEQ_ID_SIZE)))) ∧
    (∀ b0 b1 b2 b3 rest, packet = b0 :: b1 :: b2 :: b3 :: rest →
      intFromBytes4 (packet.take SEQ_ID_SIZE) =
        (if 2 ^ 31 ≤ ((b0 * 256 + b1) * 256 + b2) * 256 + b3 then
          ((((b0 * 256 + b1) * 256 + b2) * 256 + b3 : Nat) : Int) - 2 ^ 32
        else ((((b0 * 256 + b1) * 256 + b2) * 256 + b3 : Nat) : Int))) := by
  refine ⟨?_, ?_, ?_⟩
  · unfold parse_ack
    split_ifs with h
    · simp [h]
    · simp [h]
  · intro h
    unfold parse_ack
    rw [if_neg (by omega)]
  · intro b0 b1 b2 b3 rest hpkt
    subst hpkt
    rfl

/-- Witness for C4: a four-byte ACK, a short datagram, and the signed
interpretation of the ack id. -/
theorem parse_ack_spec_witness :
    parse_ack [0, 0, 0, 7] =
      some (intFromBytes4 (List.take SEQ_ID_SIZE [0, 0, 0, 7]),
        pyStrip (utf8DecodeIgnore (List.drop SEQ_ID_SIZE [0, 0, 0, 7]))) ∧
    parse_ack [9] = none ∧
    intFromBytes4 (List.take SEQ_ID_SIZE [0, 0, 0, 7]) =
      (if 2 ^ 31 ≤ ((0 * 256 + 0) * 256 + 0) * 256 + 7 then
        ((((0 * 256 + 0) * 256 + 0) * 256 + 7 : Nat) : Int) - 2 ^ 32
      else ((((0 * 256 + 0) * 256 + 0) * 256 + 7 : Nat) : Int)) :=
  ⟨(parse_ack_spec [0, 0, 0, 7]).2.1 (by decide),
   (parse_ack_spec [9]).1.mpr (by decide),
   (parse_ack_spec [0, 0, 0, 7]).2.2 0 0 0 7 [] rfl⟩

/-- Claim C3, counterexample: the six-byte datagram `[0,0,0,0,97,32]`
(ack id 0, message "a ") is well formed — at least 4 bytes and the tail
is valid UTF-8 — yet decoding strips the trailing space, so re-encoding
yields `[0,0,0,0,97]`, not the original datagram. -/
theorem parse_roundtrip_counterexample :
    (∀ c ∈ [97, 32], ValidCp c) ∧
    utf8Encode [97, 32] = List.drop SEQ_ID_SIZE [0, 0, 0, 0, 97, 32] ∧
    parse_ack [0, 0, 0, 0, 97, 32] = some (0, [97]) ∧
    make_packet 0 (utf8Encode [97]) = some [0, 0, 0, 0, 97] ∧
    ([0, 0, 0, 0, 97] : List Nat) ≠ [0, 0, 0, 0, 97, 32] := by
  decide

/-- Claim C3, amended: decoding a well-formed ACK datagram with
`parse_ack` and re-encoding the result with `make_packet` reproduces the
original bytes, provided additionally that the decoded message carries no
surrounding whitespace (which `parse_ack` strips) and the datagram is at
most `4 + MSS` bytes (beyond which `make_packet` truncates). -/
theorem parse_roundtrip (packet s : List Nat)
    (hbytes : ∀ x ∈ packet, x < 256)
    (hlen : SEQ_ID_SIZE ≤ packet.length)
    (hvalid : ∀ c ∈ s, ValidCp c)
    (henc : utf8Encode s = packet.drop SEQ_ID_SIZE)
    (hstrip : pyStrip s = s)
    (hmss : packet.length ≤ SEQ_ID_SIZE + MSS) :
    ∃ a m, parse_ack packet = some (a, m) ∧
      make_packet a (utf8Encode m) = some packet := by
  rcases packet with _ | ⟨b0, packet⟩
  · simp [SEQ_ID_SIZE] at hlen
  rcases packet with _ | ⟨b1, packet⟩
  · simp [SEQ_ID_SIZE] at hlen
  rcases packet with _ | ⟨b2, packet⟩
  · simp [SEQ_ID_SIZE] at hlen
  rcases packet with _ | ⟨b3, rest⟩
  · simp [SEQ_ID_SIZE] at hlen
  have hdrop : List.drop SEQ_ID_SIZE (b0 :: b1 :: b2 :: b3 :: rest) =
      rest := rfl
  rw [hdrop] at henc
  have hdec : utf8DecodeIgnore rest = s := by
    rw [← henc, utf8_decode_encode s hvalid]
  have hparse : parse_ack (b0 :: b1 :: b2 :: b3 :: rest) =
      some (intFromBytes4 [b0, b1, b2, b3], s) := by
    unfold parse_ack
    rw [if_neg (by simp [SEQ_ID_SIZE])]
    show some (intFromBytes4 [b0, b1, b2, b3],
      pyStrip (utf8DecodeIgnore rest)) = _
    rw [hdec, hstrip]
  refine ⟨intFromBytes4 [b0, b1, b2, b3], s, hparse, ?_⟩
  have henclen : (utf8Encode s).length ≤ MSS := by
    rw [henc]
    have hS : SEQ_ID_SIZE = 4 := rfl
    simp only [List.length_cons, hS] at hmss
    omega
  unfold make_packet
  rw [intToBytes4_intFromBytes4 b0 b1 b2 b3
    (hbytes b0 (by simp)) (hbytes b1 (by simp))
    (hbytes b2 (by simp)) (hbytes b3 (by simp))]
  rw [Option.map_some']
  rw [List.take_of_length_le henclen, henc]
  rfl

/-- Witness for C3 at the datagram `[0,0,0,5,104,105]` (ack id 5,
message "hi"). -/
theorem parse_roundtrip_witness :
    ∃ a m, parse_ack [0, 0, 0, 5, 104, 105] = some (a, m) ∧
      make_packet a (utf8Encode m) = some [0, 0, 0, 5, 104, 105] :=
  parse_roundtrip [0, 0, 0, 5, 104, 105] [104, 105] (by decide) (by decide)
    (by decide) (by decide) (by decide) (by decide)

end ECS152
